import Mathlib

/-!
# Verification of the gowaveform sample-aggregation engine

A shallow embedding of `waveform/waveform.go` and `waveform/calculations.go`
(package `waveform` of cornejong/gowaveform).

Modelling conventions:
* Go `float64` arithmetic is modelled by exact rational arithmetic (`ℚ`).
* Go `[]int16` sample slices are modelled as `List Int` (each element is the
  integer value of the 16-bit sample; the engine only reads samples).
* The numeric primitive `fastSqrt` performs an IEEE-754 bit-level
  reinterpretation that has no exact-rational counterpart; every definition
  that calls it is therefore parameterised by the primitive
  `fastSqrt : ℚ → ℚ`.  All structural facts proved below hold for an
  arbitrary primitive, and facts that need a property of it (such as
  non-negativity of its results) take that property as a hypothesis.
* `runtime.NumCPU()` is modelled by an explicit parameter `numCPU`
  (Go guarantees it is at least 1).
* Go slice indexing `samples[i]` is modelled totally by `List.getD i 0`;
  a separate `Option`-valued variant of every calculator models the
  bounds-checked access (`none` = the run would panic with an
  index-out-of-range error).
* The goroutine fan-out of `downsampleConcurrent` writes disjoint index
  ranges of the shared `peaks` array; it is modelled by applying the
  workers' writes in worker order (the disjointness of the written ranges
  is proved below, which is what makes this sequentialisation faithful).
-/

namespace Gowaveform

/-- `CalculationMode` is a string type in the source (`type CalculationMode string`). -/
abbrev CalculationMode := String

/-- `ModeRMS CalculationMode = "rms"` -/
def ModeRMS : CalculationMode := "rms"

/-- `ModeLUFS CalculationMode = "lufs"` -/
def ModeLUFS : CalculationMode := "lufs"

/-- `ModePeak CalculationMode = "peak"` -/
def ModePeak : CalculationMode := "peak"

/-- `ModeVU CalculationMode = "vu"` -/
def ModeVU : CalculationMode := "vu"

/-- `ModeDynamic CalculationMode = "dynamic"` -/
def ModeDynamic : CalculationMode := "dynamic"

/-- `ModeSmooth CalculationMode = "smooth"` -/
def ModeSmooth : CalculationMode := "smooth"

/-- `const invMaxSample = 1.0 / 32768.0` (exact in binary64, exact here). -/
def invMaxSample : ℚ := 1 / 32768

/-- Generic loop `for i := start; i < end; i++ { state = f(state, samples[i]) }`.
Every calculator loop of `calculations.go` except the unrolled head of
`calculateRMS` is an instance of this shape. -/
def loopFold {σ : Type} (f : σ → Int → σ) (samples : List Int) :
    Nat → Nat → σ → σ
  | i, e, st =>
    if h : i < e then loopFold f samples (i + 1) e (f st (samples.getD i 0))
    else st
termination_by i e _ => e - i
decreasing_by omega

/-- Bounds-checked variant of `loopFold`: the sample fetch uses `List.get?`,
so the result is `none` exactly when the Go loop would index out of range. -/
def loopFoldChecked {σ : Type} (f : σ → Int → σ) (samples : List Int) :
    Nat → Nat → σ → Option σ
  | i, e, st =>
    if h : i < e then
      (samples.get? i).bind fun v => loopFoldChecked f samples (i + 1) e (f st v)
    else some st
termination_by i e _ => e - i
decreasing_by omega

section Calculators

variable (fastSqrt : ℚ → ℚ)

/-- Loop body of `calculateLUFS` (state: `(sum, prevSample)`). -/
def lufsStep (st : ℚ × ℚ) (s : Int) : ℚ × ℚ :=
  let sample := (s : ℚ) * invMaxSample
  let filtered := sample - 0.85 * st.2
  let absFiltered := if filtered < 0 then -filtered else filtered
  (st.1 + absFiltered * absFiltered * (1.0 + absFiltered * 0.5), sample)

/-- `calculateLUFS` from `calculations.go`. -/
def calculateLUFS (samples : List Int) (start e : Nat) : ℚ :=
  if e ≤ start then 0
  else
    let bucketSize := e - start
    let sum := (loopFold lufsStep samples start e ((0 : ℚ), (0 : ℚ))).1
    if 0 < bucketSize then
      let meanSquare := sum / (bucketSize : ℚ)
      let lufs := fastSqrt meanSquare
      if lufs > 0.1 then lufs * lufs * 2.0 else lufs * 0.5
    else 0

/-- Loop body of the remainder loop of `calculateRMS` (and of the reference
accumulation): add one normalized squared sample. -/
def rmsStep (sum : ℚ) (s : Int) : ℚ :=
  let val := (s : ℚ) * invMaxSample
  sum + val * val

/-- The 8-way unrolled head loop of `calculateRMS`
(`for ; i <= end-8; i += 8 { ... }`), followed by the remainder loop
(`for ; i < end; i++ { ... }`).  Over Go's signed ints, `i <= end-8` is
equivalent to `i+8 <= end`. -/
def rmsMain (samples : List Int) : Nat → Nat → ℚ → ℚ
  | i, e, sum =>
    if _h : i + 8 ≤ e then
      let val1 := (samples.getD i 0 : ℚ) * invMaxSample
      let val2 := (samples.getD (i + 1) 0 : ℚ) * invMaxSample
      let val3 := (samples.getD (i + 2) 0 : ℚ) * invMaxSample
      let val4 := (samples.getD (i + 3) 0 : ℚ) * invMaxSample
      let val5 := (samples.getD (i + 4) 0 : ℚ) * invMaxSample
      let val6 := (samples.getD (i + 5) 0 : ℚ) * invMaxSample
      let val7 := (samples.getD (i + 6) 0 : ℚ) * invMaxSample
      let val8 := (samples.getD (i + 7) 0 : ℚ) * invMaxSample
      rmsMain samples (i + 8) e
        (sum + (val1 * val1 + val2 * val2 + val3 * val3 + val4 * val4 +
          val5 * val5 + val6 * val6 + val7 * val7 + val8 * val8))
    else loopFold rmsStep samples i e sum
termination_by i e _ => e - i
decreasing_by omega

/-- `calculateRMS` from `calculations.go` (8-way unrolled accumulation). -/
def calculateRMS (samples : List Int) (start e : Nat) : ℚ :=
  if e ≤ start then 0
  else
    let bucketSize := e - start
    let sum := rmsMain samples start e 0
    if 0 < bucketSize then fastSqrt (sum / (bucketSize : ℚ)) else 0

/-- Loop body of `calculatePeak`. -/
def peakStep (maxVal : ℚ) (s : Int) : ℚ :=
  let val := (s : ℚ) * invMaxSample
  let val := if val < 0 then -val else val
  if val > maxVal then val else maxVal

/-- `calculatePeak` from `calculations.go`. -/
def calculatePeak (samples : List Int) (start e : Nat) : ℚ :=
  if e ≤ start then 0
  else loopFold peakStep samples start e 0

/-- Loop body of `calculateVU`. -/
def vuStep (sum : ℚ) (s : Int) : ℚ :=
  let val := (s : ℚ) * invMaxSample
  sum + val * val * 0.8

/-- `calculateVU` from `calculations.go`. -/
def calculateVU (samples : List Int) (start e : Nat) : ℚ :=
  if e ≤ start then 0
  else
    let bucketSize := e - start
    let sum := loopFold vuStep samples start e 0
    if 0 < bucketSize then fastSqrt (sum / (bucketSize : ℚ)) * 1.2 else 0

/-- Loop body of the first pass of `calculateDynamic` (mean of magnitudes). -/
def dynMeanStep (mean : ℚ) (s : Int) : ℚ :=
  let val := (s : ℚ) * invMaxSample
  let val := if val < 0 then -val else val
  mean + val

/-- Loop body of the second pass of `calculateDynamic`
(state: `(sum, variance)`, with the pass-1 mean captured). -/
def dynVarStep (mean : ℚ) (st : ℚ × ℚ) (s : Int) : ℚ × ℚ :=
  let val := (s : ℚ) * invMaxSample
  let val := if val < 0 then -val else val
  let diff := val - mean
  (st.1 + val * val, st.2 + diff * diff)

/-- `calculateDynamic` from `calculations.go` (two passes). -/
def calculateDynamic (samples : List Int) (start e : Nat) : ℚ :=
  if e ≤ start then 0
  else
    let bucketSize := e - start
    let mean := loopFold dynMeanStep samples start e 0 / (bucketSize : ℚ)
    let sv := loopFold (dynVarStep mean) samples start e ((0 : ℚ), (0 : ℚ))
    if 0 < bucketSize then
      let rms := fastSqrt (sv.1 / (bucketSize : ℚ))
      let dynamicFactor := fastSqrt (sv.2 / (bucketSize : ℚ))
      rms * (1.0 + dynamicFactor * 2.0)
    else 0

/-- Loop body of `calculateSmooth` (state: `(sum, smoothedPrev)`,
`smoothingFactor = 0.95`). -/
def smoothStep (st : ℚ × ℚ) (s : Int) : ℚ × ℚ :=
  let val := (s : ℚ) * invMaxSample
  let val := if val < 0 then -val else val
  let smoothedPrev := 0.95 * st.2 + (1.0 - 0.95) * val
  (st.1 + smoothedPrev * smoothedPrev, smoothedPrev)

/-- `calculateSmooth` from `calculations.go`. -/
def calculateSmooth (samples : List Int) (start e : Nat) : ℚ :=
  if e ≤ start then 0
  else
    let bucketSize := e - start
    let sum := (loopFold smoothStep samples start e ((0 : ℚ), (0 : ℚ))).1
    if 0 < bucketSize then fastSqrt (sum / (bucketSize : ℚ)) * 0.8 else 0

/-- `calculateLoudness` from `calculations.go`: mode dispatch, with unknown
modes falling through to the LUFS computation. -/
def calculateLoudness (samples : List Int) (start e : Nat)
    (mode : CalculationMode) : ℚ :=
  if mode = ModeRMS then calculateRMS fastSqrt samples start e
  else if mode = ModeLUFS then calculateLUFS fastSqrt samples start e
  else if mode = ModePeak then calculatePeak samples start e
  else if mode = ModeVU then calculateVU fastSqrt samples start e
  else if mode = ModeDynamic then calculateDynamic fastSqrt samples start e
  else if mode = ModeSmooth then calculateSmooth fastSqrt samples start e
  else calculateLUFS fastSqrt samples start e

end Calculators

section Engine

variable (fastSqrt : ℚ → ℚ)

/-- The bucket size used by both `downsample` and `downsampleConcurrent`:
`samplesPerBucket := len(samples) / buckets`, clamped up to 1 when 0. -/
def samplesPerBucket (n buckets : Nat) : Nat :=
  if n / buckets = 0 then 1 else n / buckets

/-- Value written into `peaks[bucket]` by both paths:
`startSample := bucket*samplesPerBucket`,
`endSample := min(startSample+samplesPerBucket, len(samples))`. -/
def bucketPeak (samples : List Int) (spb : Nat) (mode : CalculationMode)
    (bucket : Nat) : ℚ :=
  calculateLoudness fastSqrt samples (bucket * spb)
    (min (bucket * spb + spb) samples.length) mode

/-- The write loop `for bucket := startB; bucket < endB; bucket++ {
peaks[bucket] = calculateLoudness(...) }` shared by `downsample` (over the
whole range `[0, buckets)`) and by each worker of `downsampleConcurrent`
(over its assigned range). -/
def writeBuckets (samples : List Int) (spb : Nat) (mode : CalculationMode) :
    Nat → Nat → List ℚ → List ℚ
  | i, e, peaks =>
    if h : i < e then
      writeBuckets samples spb mode (i + 1) e
        (peaks.set i (bucketPeak fastSqrt samples spb mode i))
    else peaks
termination_by i e _ => e - i
decreasing_by omega

/-- `downsample` from `waveform.go`: sequential bucket reduction. -/
def downsample (samples : List Int) (buckets : Nat)
    (mode : CalculationMode) : List ℚ :=
  if samples.length = 0 ∨ buckets = 0 then []
  else
    let spb := samplesPerBucket samples.length buckets
    writeBuckets fastSqrt samples spb mode 0 buckets (List.replicate buckets 0)

/-- Worker count of `downsampleConcurrent`: starts at `runtime.NumCPU()`,
reduced to `buckets` when `buckets / numCPU = 0`. -/
def workerCount (numCPU buckets : Nat) : Nat :=
  if buckets / numCPU = 0 then buckets else numCPU

/-- Buckets-per-worker of `downsampleConcurrent`: `buckets / numWorkers`,
clamped up to 1 (in which case the worker count is reduced to `buckets`). -/
def bucketsPerWorker (numCPU buckets : Nat) : Nat :=
  if buckets / numCPU = 0 then 1 else buckets / numCPU

/-- `startBucket := workerID * bucketsPerWorker` for worker `w`. -/
def workerStart (numCPU buckets w : Nat) : Nat :=
  w * bucketsPerWorker numCPU buckets

/-- `endBucket := startBucket + bucketsPerWorker`, except the last worker
takes all remaining buckets. -/
def workerEnd (numCPU buckets w : Nat) : Nat :=
  if w = workerCount numCPU buckets - 1 then buckets
  else w * bucketsPerWorker numCPU buckets + bucketsPerWorker numCPU buckets

/-- The body of one goroutine of `downsampleConcurrent` (`go func(workerID
int) { ... }`): write every bucket in the worker's assigned range. -/
def workerWrite (numCPU buckets : Nat) (samples : List Int) (spb : Nat)
    (mode : CalculationMode) (peaks : List ℚ) (w : Nat) : List ℚ :=
  writeBuckets fastSqrt samples spb mode
    (workerStart numCPU buckets w) (workerEnd numCPU buckets w) peaks

/-- `downsampleConcurrent` from `waveform.go`.  The goroutines write
disjoint ranges of the shared `peaks` array (proved below), so the
fork-join fan-out is modelled by applying the workers' write loops in
worker order. -/
def downsampleConcurrent (numCPU : Nat) (samples : List Int) (buckets : Nat)
    (mode : CalculationMode) : List ℚ :=
  if samples.length = 0 ∨ buckets = 0 then []
  else
    let spb := samplesPerBucket samples.length buckets
    if samples.length < 50000 then downsample fastSqrt samples buckets mode
    else
      (List.range (workerCount numCPU buckets)).foldl
        (workerWrite fastSqrt numCPU buckets samples spb mode)
        (List.replicate buckets 0)

/-- `Config` from `waveform.go`.  The `int` fields only ever hold
non-negative values in the specified behaviour, so they are modelled by
`Nat`; `float64` by `ℚ`. -/
structure Config where
  Width : Nat
  Height : Nat
  Bars : Nat
  BarSpacing : Nat
  BarColor : String
  CornerRadius : ℚ
  Concurrent : Bool
  Mode : CalculationMode
deriving DecidableEq

/-- `DefaultConfig` from `waveform.go`. -/
def DefaultConfig : Config :=
  { Width := 500, Height := 80, Bars := 100, BarSpacing := 2,
    BarColor := "#3B82F6", CornerRadius := 8.0, Concurrent := true,
    Mode := ModeDynamic }

/-- `Waveform` from `waveform.go`. -/
structure Waveform where
  Peaks : List ℚ
  Config : Config
deriving DecidableEq

/-- The peak-generation step shared by `NewFromSamples` and `UpdateConfig`:
choose the concurrent or sequential path by `config.Concurrent`. -/
def generatePeaks (numCPU : Nat) (samples : List Int) (config : Config) :
    List ℚ :=
  if config.Concurrent then
    downsampleConcurrent fastSqrt numCPU samples config.Bars config.Mode
  else downsample fastSqrt samples config.Bars config.Mode

/-- `NewFromSamples` from `waveform.go` (`config == nil` modelled by
`Option`; a nil config is replaced by `DefaultConfig`). -/
def NewFromSamples (numCPU : Nat) (samples : List Int)
    (configArg : Option Config) : Waveform :=
  let config := configArg.getD DefaultConfig
  { Peaks := generatePeaks fastSqrt numCPU samples config, Config := config }

/-- `UpdateConfig` from `waveform.go`: replace the config, and regenerate
the peaks when the mode changed and a non-nil sample slice was passed
(a nil Go slice is modelled by `none`). -/
def UpdateConfig (numCPU : Nat) (w : Waveform) (config : Config)
    (samples : Option (List Int)) : Waveform :=
  let oldMode := w.Config.Mode
  let w1 : Waveform := { w with Config := config }
  if oldMode ≠ config.Mode ∧ samples ≠ none then
    { w1 with
      Peaks := generatePeaks fastSqrt numCPU (samples.getD []) config }
  else w1

end Engine

section SpecReference

variable (fastSqrt : ℚ → ℚ)

/-- The straightforward squared-sum reference for RMS, written from the
spec's words: accumulate each normalized squared sample one at a time. -/
def sumSquaresRef (samples : List Int) (start e : Nat) : ℚ :=
  ((List.range (e - start)).map fun k =>
    let val := (samples.getD (start + k) 0 : ℚ) * invMaxSample
    val * val).sum

/-- The reference RMS computation from the spec's words: squared-sum
accumulation, divided by the range length, square-rooted
(`end ≤ start` yields 0 as the spec requires of every calculator). -/
def calculateRMSRef (samples : List Int) (start e : Nat) : ℚ :=
  if e ≤ start then 0
  else fastSqrt (sumSquaresRef samples start e / ((e - start : Nat) : ℚ))

/-- One scaled filtered magnitude of the spec's LUFS description:
`m²·(1+0.5·m)` for `m = |sample − 0.85·prevSample|`. -/
def lufsTerm (q : ℚ × ℚ) : ℚ :=
  let m := |q.1 - 0.85 * q.2|
  m * m * (1 + 0.5 * m)

/-- The LUFS computation written from the spec's words: normalize the
samples of the range, pair each with its predecessor (the first paired
with 0), filter (`sample − 0.85·prevSample`), sum the scaled magnitudes
`m²·(1+0.5·m)`, take the approximate square root `v` of the mean, and
post-curve with threshold `0.1`. -/
def lufsSpec (samples : List Int) (start e : Nat) : ℚ :=
  let xs := ((List.range (e - start)).map fun k =>
    samples.getD (start + k) 0).map fun (s : Int) => (s : ℚ) * invMaxSample
  let sum := ((xs.zip ((0 : ℚ) :: xs)).map lufsTerm).sum
  let v := fastSqrt (sum / ((e - start : Nat) : ℚ))
  if v > 0.1 then v * v * 2 else v * 0.5

end SpecReference

section Checked

variable (fastSqrt : ℚ → ℚ)

/-- Bounds-checked `calculateLUFS`. -/
def calculateLUFSChecked (samples : List Int) (start e : Nat) : Option ℚ :=
  if e ≤ start then some 0
  else
    (loopFoldChecked lufsStep samples start e ((0 : ℚ), (0 : ℚ))).map fun st =>
      let bucketSize := e - start
      let sum := st.1
      if 0 < bucketSize then
        let meanSquare := sum / (bucketSize : ℚ)
        let lufs := fastSqrt meanSquare
        if lufs > 0.1 then lufs * lufs * 2.0 else lufs * 0.5
      else 0

/-- Bounds-checked variant of the unrolled head loop of `calculateRMS`:
each of the eight sample fetches is checked. -/
def rmsMainChecked (samples : List Int) : Nat → Nat → ℚ → Option ℚ
  | i, e, sum =>
    if _h : i + 8 ≤ e then
      (samples.get? i).bind fun s1 =>
      (samples.get? (i + 1)).bind fun s2 =>
      (samples.get? (i + 2)).bind fun s3 =>
      (samples.get? (i + 3)).bind fun s4 =>
      (samples.get? (i + 4)).bind fun s5 =>
      (samples.get? (i + 5)).bind fun s6 =>
      (samples.get? (i + 6)).bind fun s7 =>
      (samples.get? (i + 7)).bind fun s8 =>
      let val1 := (s1 : ℚ) * invMaxSample
      let val2 := (s2 : ℚ) * invMaxSample
      let val3 := (s3 : ℚ) * invMaxSample
      let val4 := (s4 : ℚ) * invMaxSample
      let val5 := (s5 : ℚ) * invMaxSample
      let val6 := (s6 : ℚ) * invMaxSample
      let val7 := (s7 : ℚ) * invMaxSample
      let val8 := (s8 : ℚ) * invMaxSample
      rmsMainChecked samples (i + 8) e
        (sum + (val1 * val1 + val2 * val2 + val3 * val3 + val4 * val4 +
          val5 * val5 + val6 * val6 + val7 * val7 + val8 * val8))
    else loopFoldChecked rmsStep samples i e sum
termination_by i e _ => e - i
decreasing_by omega

/-- Bounds-checked `calculateRMS`. -/
def calculateRMSChecked (samples : List Int) (start e : Nat) : Option ℚ :=
  if e ≤ start then some 0
  else
    (rmsMainChecked samples start e 0).map fun sum =>
      let bucketSize := e - start
      if 0 < bucketSize then fastSqrt (sum / (bucketSize : ℚ)) else 0

/-- Bounds-checked `calculatePeak`. -/
def calculatePeakChecked (samples : List Int) (start e : Nat) : Option ℚ :=
  if e ≤ start then some 0
  else loopFoldChecked peakStep samples start e 0

/-- Bounds-checked `calculateVU`. -/
def calculateVUChecked (samples : List Int) (start e : Nat) : Option ℚ :=
  if e ≤ start then some 0
  else
    (loopFoldChecked vuStep samples start e 0).map fun sum =>
      let bucketSize := e - start
      if 0 < bucketSize then fastSqrt (sum / (bucketSize : ℚ)) * 1.2 else 0

/-- Bounds-checked `calculateDynamic`. -/
def calculateDynamicChecked (samples : List Int) (start e : Nat) : Option ℚ :=
  if e ≤ start then some 0
  else
    (loopFoldChecked dynMeanStep samples start e 0).bind fun m =>
      let bucketSize := e - start
      let mean := m / (bucketSize : ℚ)
      (loopFoldChecked (dynVarStep mean) samples start e ((0 : ℚ), (0 : ℚ))).map
        fun sv =>
          if 0 < bucketSize then
            let rms := fastSqrt (sv.1 / (bucketSize : ℚ))
            let dynamicFactor := fastSqrt (sv.2 / (bucketSize : ℚ))
            rms * (1.0 + dynamicFactor * 2.0)
          else 0

/-- Bounds-checked `calculateSmooth`. -/
def calculateSmoothChecked (samples : List Int) (start e : Nat) : Option ℚ :=
  if e ≤ start then some 0
  else
    (loopFoldChecked smoothStep samples start e ((0 : ℚ), (0 : ℚ))).map fun st =>
      let bucketSize := e - start
      if 0 < bucketSize then fastSqrt (st.1 / (bucketSize : ℚ)) * 0.8 else 0

/-- Bounds-checked `calculateLoudness` (same dispatch). -/
def calculateLoudnessChecked (samples : List Int) (start e : Nat)
    (mode : CalculationMode) : Option ℚ :=
  if mode = ModeRMS then calculateRMSChecked fastSqrt samples start e
  else if mode = ModeLUFS then calculateLUFSChecked fastSqrt samples start e
  else if mode = ModePeak then calculatePeakChecked samples start e
  else if mode = ModeVU then calculateVUChecked fastSqrt samples start e
  else if mode = ModeDynamic then calculateDynamicChecked fastSqrt samples start e
  else if mode = ModeSmooth then calculateSmoothChecked fastSqrt samples start e
  else calculateLUFSChecked fastSqrt samples start e

/-- Bounds-checked bucket value. -/
def bucketPeakChecked (samples : List Int) (spb : Nat)
    (mode : CalculationMode) (bucket : Nat) : Option ℚ :=
  calculateLoudnessChecked fastSqrt samples (bucket * spb)
    (min (bucket * spb + spb) samples.length) mode

/-- Bounds-checked bucket write loop. -/
def writeBucketsChecked (samples : List Int) (spb : Nat)
    (mode : CalculationMode) : Nat → Nat → List ℚ → Option (List ℚ)
  | i, e, peaks =>
    if h : i < e then
      (bucketPeakChecked fastSqrt samples spb mode i).bind fun v =>
        writeBucketsChecked samples spb mode (i + 1) e (peaks.set i v)
    else some peaks
termination_by i e _ => e - i
decreasing_by omega

/-- Bounds-checked `downsample`: `none` iff some sample access of the
sequential run would be out of range. -/
def downsampleChecked (samples : List Int) (buckets : Nat)
    (mode : CalculationMode) : Option (List ℚ) :=
  if samples.length = 0 ∨ buckets = 0 then some []
  else
    let spb := samplesPerBucket samples.length buckets
    writeBucketsChecked fastSqrt samples spb mode 0 buckets
      (List.replicate buckets 0)

/-- Bounds-checked body of one goroutine of `downsampleConcurrent`. -/
def workerWriteChecked (numCPU buckets : Nat) (samples : List Int) (spb : Nat)
    (mode : CalculationMode) (acc : Option (List ℚ)) (w : Nat) :
    Option (List ℚ) :=
  acc.bind fun peaks =>
    writeBucketsChecked fastSqrt samples spb mode
      (workerStart numCPU buckets w) (workerEnd numCPU buckets w) peaks

/-- Bounds-checked `downsampleConcurrent`. -/
def downsampleConcurrentChecked (numCPU : Nat) (samples : List Int)
    (buckets : Nat) (mode : CalculationMode) : Option (List ℚ) :=
  if samples.length = 0 ∨ buckets = 0 then some []
  else
    let spb := samplesPerBucket samples.length buckets
    if samples.length < 50000 then
      downsampleChecked fastSqrt samples buckets mode
    else
      (List.range (workerCount numCPU buckets)).foldl
        (workerWriteChecked fastSqrt numCPU buckets samples spb mode)
        (some (List.replicate buckets 0))

end Checked

/-! ## Helper lemmas -/

section Helpers

variable (fastSqrt : ℚ → ℚ)

/-- In-bounds sample fetch: `get?` agrees with the total `getD` access. -/
theorem get?_eq_some_getD (samples : List Int) (i : Nat)
    (h : i < samples.length) : samples.get? i = some (samples.getD i 0) := by
  simp [List.getD_eq_getElem?_getD, List.get?_eq_getElem?,
    List.getElem?_eq_getElem h]

/-- The bounds-checked loop succeeds, with the total loop's result, whenever
the loop's index range stays inside the sample list. -/
theorem loopFoldChecked_eq_some {σ : Type} (f : σ → Int → σ)
    (samples : List Int) (i e : Nat) (st : σ) (he : e ≤ samples.length) :
    loopFoldChecked f samples i e st = some (loopFold f samples i e st) := by
  rw [loopFoldChecked, loopFold]
  by_cases h : i < e
  · rw [dif_pos h, dif_pos h, get?_eq_some_getD samples i (by omega),
      Option.some_bind]
    exact loopFoldChecked_eq_some f samples (i + 1) e _ he
  · rw [dif_neg h, dif_neg h]
termination_by e - i
decreasing_by omega

/-- One step of the bucket write loop (`i < e`). -/
theorem writeBuckets_step (samples : List Int) (spb : Nat)
    (mode : CalculationMode) (i e : Nat) (peaks : List ℚ) (h : i < e) :
    writeBuckets fastSqrt samples spb mode i e peaks =
      writeBuckets fastSqrt samples spb mode (i + 1) e
        (peaks.set i (bucketPeak fastSqrt samples spb mode i)) := by
  rw [writeBuckets, dif_pos h]

/-- The bucket write loop over an empty range is the identity. -/
theorem writeBuckets_stop (samples : List Int) (spb : Nat)
    (mode : CalculationMode) (i e : Nat) (peaks : List ℚ) (h : ¬i < e) :
    writeBuckets fastSqrt samples spb mode i e peaks = peaks := by
  rw [writeBuckets, dif_neg h]

/-- `writeBuckets` never changes the length of the peaks array. -/
theorem writeBuckets_length (samples : List Int) (spb : Nat)
    (mode : CalculationMode) (i e : Nat) (peaks : List ℚ) :
    (writeBuckets fastSqrt samples spb mode i e peaks).length =
      peaks.length := by
  by_cases h : i < e
  · rw [writeBuckets_step fastSqrt samples spb mode i e peaks h,
      writeBuckets_length samples spb mode (i + 1) e, List.length_set]
  · rw [writeBuckets_stop fastSqrt samples spb mode i e peaks h]
termination_by e - i
decreasing_by omega

/-- Entry `j` after the write loop over `[i, e)`: the bucket value when
`j` was written (in range and within the array), otherwise untouched. -/
theorem writeBuckets_get? (samples : List Int) (spb : Nat)
    (mode : CalculationMode) (i e : Nat) (peaks : List ℚ) (j : Nat) :
    (writeBuckets fastSqrt samples spb mode i e peaks).get? j =
      if i ≤ j ∧ j < e ∧ j < peaks.length
      then some (bucketPeak fastSqrt samples spb mode j)
      else peaks.get? j := by
  by_cases h : i < e
  · rw [writeBuckets_step fastSqrt samples spb mode i e peaks h,
      writeBuckets_get? samples spb mode (i + 1) e _ j,
      List.length_set]
    by_cases hj : i + 1 ≤ j ∧ j < e ∧ j < peaks.length
    · rw [if_pos hj, if_pos ⟨by omega, hj.2⟩]
    · rw [if_neg hj]
      by_cases hij : j = i
      · subst hij
        by_cases hlen : j < peaks.length
        · rw [List.get?_set_eq_of_lt _ hlen, if_pos ⟨Nat.le_refl j, h, hlen⟩]
        · rw [List.set_eq_of_length_le (by omega), if_neg (by omega)]
      · rw [List.get?_set_ne _ _ (fun hc => hij hc.symm), if_neg (by omega)]
  · rw [writeBuckets_stop fastSqrt samples spb mode i e peaks h, if_neg (by omega)]
termination_by e - i
decreasing_by omega

/-- Composing two consecutive write loops gives the loop over the union. -/
theorem writeBuckets_comp (samples : List Int) (spb : Nat)
    (mode : CalculationMode) (a b c : Nat) (p : List ℚ)
    (hab : a ≤ b) (hbc : b ≤ c) :
    writeBuckets fastSqrt samples spb mode b c
        (writeBuckets fastSqrt samples spb mode a b p) =
      writeBuckets fastSqrt samples spb mode a c p := by
  by_cases h : a < b
  · rw [writeBuckets_step fastSqrt samples spb mode a b p h,
      writeBuckets_step fastSqrt samples spb mode a c p (by omega)]
    exact writeBuckets_comp samples spb mode (a + 1) b c _ h hbc
  · have hab' : a = b := by omega
    subst hab'
    rw [writeBuckets_stop fastSqrt samples spb mode a a p h]
termination_by b - a
decreasing_by omega

/-- Every worker is assigned at least one bucket. -/
theorem bucketsPerWorker_pos (numCPU buckets : Nat) :
    1 ≤ bucketsPerWorker numCPU buckets := by
  rw [bucketsPerWorker]
  by_cases h : buckets / numCPU = 0
  · rw [if_pos h]
  · rw [if_neg h]; exact Nat.one_le_iff_ne_zero.mpr h

/-- There is at least one worker when there is at least one bucket. -/
theorem workerCount_pos (numCPU buckets : Nat) (hcpu : 1 ≤ numCPU)
    (hb : 1 ≤ buckets) : 1 ≤ workerCount numCPU buckets := by
  rw [workerCount]
  by_cases h : buckets / numCPU = 0
  · rw [if_pos h]; exact hb
  · rw [if_neg h]; exact hcpu

/-- The last worker's start bucket does not pass the end of the array. -/
theorem workerLast_le (numCPU buckets : Nat) :
    (workerCount numCPU buckets - 1) * bucketsPerWorker numCPU buckets ≤
      buckets := by
  rw [workerCount, bucketsPerWorker]
  by_cases h : buckets / numCPU = 0
  · rw [if_pos h, if_pos h, Nat.mul_one]; omega
  · rw [if_neg h, if_neg h]
    calc (numCPU - 1) * (buckets / numCPU)
        ≤ numCPU * (buckets / numCPU) :=
          Nat.mul_le_mul_right _ (Nat.sub_le _ _)
      _ = buckets / numCPU * numCPU := Nat.mul_comm _ _
      _ ≤ buckets := Nat.div_mul_le_self _ _

/-- A non-last worker's end bucket is the next worker's start bucket. -/
theorem workerEnd_of_ne (numCPU buckets w : Nat)
    (h : w ≠ workerCount numCPU buckets - 1) :
    workerEnd numCPU buckets w = (w + 1) * bucketsPerWorker numCPU buckets := by
  rw [workerEnd, if_neg h, Nat.succ_mul]

/-- The first `k` workers together write exactly the buckets
`[0, k * bucketsPerWorker)`. -/
theorem workers_fold_aux (samples : List Int) (spb : Nat)
    (mode : CalculationMode) (numCPU buckets : Nat) (p : List ℚ)
    (k : Nat) (hk : k < workerCount numCPU buckets) :
    (List.range k).foldl
        (workerWrite fastSqrt numCPU buckets samples spb mode) p =
      writeBuckets fastSqrt samples spb mode
        0 (k * bucketsPerWorker numCPU buckets) p := by
  induction k with
  | zero =>
      rw [List.range_zero, List.foldl_nil, Nat.zero_mul,
        writeBuckets_stop fastSqrt samples spb mode 0 0 p (by omega)]
  | succ k ih =>
      rw [List.range_succ, List.foldl_append, List.foldl_cons, List.foldl_nil,
        ih (by omega), workerWrite, workerStart,
        workerEnd_of_ne numCPU buckets k (by omega),
        writeBuckets_comp fastSqrt samples spb mode
          0 (k * bucketsPerWorker numCPU buckets)
          ((k + 1) * bucketsPerWorker numCPU buckets) p (Nat.zero_le _)
          (by rw [Nat.succ_mul]; exact Nat.le_add_right _ _)]

/-- The complete worker fan-out of `downsampleConcurrent` performs exactly
the sequential write loop over all `buckets` buckets. -/
theorem workers_fold (samples : List Int) (spb : Nat)
    (mode : CalculationMode) (numCPU buckets : Nat) (p : List ℚ)
    (hcpu : 1 ≤ numCPU) (hb : 1 ≤ buckets) :
    (List.range (workerCount numCPU buckets)).foldl
        (workerWrite fastSqrt numCPU buckets samples spb mode) p =
      writeBuckets fastSqrt samples spb mode 0 buckets p := by
  have hwc : 1 ≤ workerCount numCPU buckets := workerCount_pos _ _ hcpu hb
  have hsplit : workerCount numCPU buckets =
      (workerCount numCPU buckets - 1) + 1 := by omega
  rw [hsplit, List.range_succ, List.foldl_append, List.foldl_cons,
    List.foldl_nil,
    workers_fold_aux fastSqrt samples spb mode numCPU buckets p _ (by omega),
    workerWrite, workerStart, workerEnd, if_pos rfl,
    writeBuckets_comp fastSqrt samples spb mode
      0 ((workerCount numCPU buckets - 1) * bucketsPerWorker numCPU buckets)
      buckets p (Nat.zero_le _) (workerLast_le numCPU buckets)]

/-- `downsampleConcurrent` computes the same peak list as `downsample`, for
any worker count of at least one. -/
theorem concurrent_eq_sequential (numCPU : Nat) (samples : List Int)
    (buckets : Nat) (mode : CalculationMode) (hcpu : 1 ≤ numCPU) :
    downsampleConcurrent fastSqrt numCPU samples buckets mode =
      downsample fastSqrt samples buckets mode := by
  rw [downsampleConcurrent]
  by_cases hg : samples.length = 0 ∨ buckets = 0
  · rw [if_pos hg, downsample, if_pos hg]
  · rw [if_neg hg]
    by_cases hs : samples.length < 50000
    · simp only [if_pos hs]
    · simp only [if_neg hs]
      rw [workers_fold fastSqrt samples _ mode numCPU buckets _ hcpu
        (by omega)]
      rw [downsample, if_neg hg]

/-- Splitting off the last element of a `flatMap` over `List.range`. -/
theorem flatMap_range_succ {α : Type} (f : Nat → List α) (k : Nat) :
    (List.range (k + 1)).flatMap f = (List.range k).flatMap f ++ f k := by
  simp [List.range_succ]

/-- The first `k` workers' bucket ranges, concatenated in worker order, are
exactly the indices `[0, k * bucketsPerWorker)`. -/
theorem workerRanges_cover_aux (numCPU buckets : Nat) (k : Nat)
    (hk : k < workerCount numCPU buckets) :
    (List.range k).flatMap
        (fun w => List.range' (workerStart numCPU buckets w)
          (workerEnd numCPU buckets w - workerStart numCPU buckets w)) =
      List.range' 0 (k * bucketsPerWorker numCPU buckets) := by
  induction k with
  | zero => rw [List.range_zero, List.flatMap_nil, Nat.zero_mul, List.range'_zero]
  | succ k ih =>
      simp only [flatMap_range_succ]
      rw [ih (by omega), workerStart,
        workerEnd_of_ne numCPU buckets k (by omega)]
      have harith : (k + 1) * bucketsPerWorker numCPU buckets -
          k * bucketsPerWorker numCPU buckets = bucketsPerWorker numCPU buckets := by
        rw [Nat.succ_mul]; omega
      rw [harith]
      have := List.range'_append_1 0 (k * bucketsPerWorker numCPU buckets)
        (bucketsPerWorker numCPU buckets)
      rw [Nat.zero_add] at this
      rw [this, Nat.succ_mul, Nat.add_comm]

/-- The workers' bucket ranges, concatenated in worker order, are exactly
the bucket indices `0, 1, ..., buckets-1`, each occurring exactly once:
the partition `bucketsPerWorker = buckets / workers` with the last worker
absorbing the remainder covers every bucket exactly once. -/
theorem workerRanges_cover (numCPU buckets : Nat) (hcpu : 1 ≤ numCPU)
    (hb : 1 ≤ buckets) :
    (List.range (workerCount numCPU buckets)).flatMap
        (fun w => List.range' (workerStart numCPU buckets w)
          (workerEnd numCPU buckets w - workerStart numCPU buckets w)) =
      List.range buckets := by
  have hwc : 1 ≤ workerCount numCPU buckets := workerCount_pos _ _ hcpu hb
  have hsplit : workerCount numCPU buckets =
      (workerCount numCPU buckets - 1) + 1 := by omega
  rw [hsplit]
  simp only [flatMap_range_succ]
  rw [workerRanges_cover_aux numCPU buckets _ (by omega),
    workerStart, workerEnd, if_pos rfl]
  have hle := workerLast_le numCPU buckets
  have := List.range'_append_1 0
    ((workerCount numCPU buckets - 1) * bucketsPerWorker numCPU buckets)
    (buckets -
      (workerCount numCPU buckets - 1) * bucketsPerWorker numCPU buckets)
  rw [Nat.zero_add] at this
  rw [this]
  have harith : buckets -
      (workerCount numCPU buckets - 1) * bucketsPerWorker numCPU buckets +
      (workerCount numCPU buckets - 1) * bucketsPerWorker numCPU buckets =
      buckets := by omega
  rw [harith, List.range_eq_range']

/-- One step of the generic index loop (`i < e`). -/
theorem loopFold_step {σ : Type} (f : σ → Int → σ) (samples : List Int)
    (i e : Nat) (st : σ) (h : i < e) :
    loopFold f samples i e st =
      loopFold f samples (i + 1) e (f st (samples.getD i 0)) := by
  rw [loopFold, dif_pos h]

/-- The generic index loop over an empty range is the identity. -/
theorem loopFold_stop {σ : Type} (f : σ → Int → σ) (samples : List Int)
    (i e : Nat) (st : σ) (h : ¬i < e) :
    loopFold f samples i e st = st := by
  rw [loopFold, dif_neg h]

/-- The index loop over `[i, e)` is the list fold over the fetched segment. -/
theorem loopFold_eq_foldl {σ : Type} (f : σ → Int → σ) (samples : List Int)
    (i e : Nat) (st : σ) :
    loopFold f samples i e st =
      ((List.range (e - i)).map fun k => samples.getD (i + k) 0).foldl f st := by
  by_cases h : i < e
  · rw [loopFold_step f samples i e st h, loopFold_eq_foldl f samples (i + 1) e]
    have hn : e - i = (e - (i + 1)) + 1 := by omega
    rw [hn, List.range_succ_eq_map, List.map_cons, List.map_map,
      List.foldl_cons]
    have hfun : ((fun k => samples.getD (i + k) 0) ∘ Nat.succ) =
        fun k => samples.getD (i + 1 + k) 0 := by
      funext k
      simp only [Function.comp_apply]
      rw [show i + Nat.succ k = i + 1 + k by omega]
    rw [hfun]
    simp
  · rw [loopFold_stop f samples i e st h, show e - i = 0 by omega,
      List.range_zero, List.map_nil, List.foldl_nil]
termination_by e - i
decreasing_by omega

/-- Folding the RMS accumulation over a list adds the normalized squares. -/
theorem foldl_rmsStep (l : List Int) (sum : ℚ) :
    l.foldl rmsStep sum =
      sum + (l.map fun (s : Int) =>
        ((s : ℚ) * invMaxSample) * ((s : ℚ) * invMaxSample)).sum := by
  induction l generalizing sum with
  | nil => simp
  | cons a l ih =>
      rw [List.foldl_cons, ih, List.map_cons, List.sum_cons]
      simp only [rmsStep]
      ring

/-- One step of the unrolled head loop of `calculateRMS` (`i + 8 ≤ e`). -/
theorem rmsMain_step (samples : List Int) (i e : Nat) (sum : ℚ)
    (h : i + 8 ≤ e) :
    rmsMain samples i e sum =
      rmsMain samples (i + 8) e
        (sum + (((samples.getD i 0 : ℚ) * invMaxSample) *
            ((samples.getD i 0 : ℚ) * invMaxSample) +
          ((samples.getD (i + 1) 0 : ℚ) * invMaxSample) *
            ((samples.getD (i + 1) 0 : ℚ) * invMaxSample) +
          ((samples.getD (i + 2) 0 : ℚ) * invMaxSample) *
            ((samples.getD (i + 2) 0 : ℚ) * invMaxSample) +
          ((samples.getD (i + 3) 0 : ℚ) * invMaxSample) *
            ((samples.getD (i + 3) 0 : ℚ) * invMaxSample) +
          ((samples.getD (i + 4) 0 : ℚ) * invMaxSample) *
            ((samples.getD (i + 4) 0 : ℚ) * invMaxSample) +
          ((samples.getD (i + 5) 0 : ℚ) * invMaxSample) *
            ((samples.getD (i + 5) 0 : ℚ) * invMaxSample) +
          ((samples.getD (i + 6) 0 : ℚ) * invMaxSample) *
            ((samples.getD (i + 6) 0 : ℚ) * invMaxSample) +
          ((samples.getD (i + 7) 0 : ℚ) * invMaxSample) *
            ((samples.getD (i + 7) 0 : ℚ) * invMaxSample))) := by
  rw [rmsMain, dif_pos h]

/-- The unrolled head loop plus remainder loop of `calculateRMS` computes
exactly the simple one-at-a-time accumulation loop. -/
theorem rmsMain_eq_loopFold (samples : List Int) (i e : Nat) (sum : ℚ) :
    rmsMain samples i e sum = loopFold rmsStep samples i e sum := by
  by_cases h : i + 8 ≤ e
  · rw [rmsMain_step samples i e sum h, rmsMain_eq_loopFold samples (i + 8) e,
      loopFold_step rmsStep samples i e sum (by omega),
      loopFold_step rmsStep samples (i + 1) e _ (by omega),
      loopFold_step rmsStep samples (i + 2) e _ (by omega),
      loopFold_step rmsStep samples (i + 3) e _ (by omega),
      loopFold_step rmsStep samples (i + 4) e _ (by omega),
      loopFold_step rmsStep samples (i + 5) e _ (by omega),
      loopFold_step rmsStep samples (i + 6) e _ (by omega),
      loopFold_step rmsStep samples (i + 7) e _ (by omega)]
    congr 1
    simp only [rmsStep]
    ring
  · rw [rmsMain, dif_neg h]
termination_by e - i
decreasing_by omega

/-- Every calculator yields `0` on an empty range, whatever the mode. -/
theorem calculateLoudness_empty (samples : List Int) (start e : Nat)
    (mode : CalculationMode) (h : e ≤ start) :
    calculateLoudness fastSqrt samples start e mode = 0 := by
  simp only [calculateLoudness, calculateRMS, calculateLUFS, calculatePeak,
    calculateVU, calculateDynamic, calculateSmooth, if_pos h, ite_self]

/-- `downsample` on an empty input or zero buckets is empty. -/
theorem downsample_nil (samples : List Int) (buckets : Nat)
    (mode : CalculationMode) (h : samples.length = 0 ∨ buckets = 0) :
    downsample fastSqrt samples buckets mode = [] := by
  rw [downsample, if_pos h]

/-- `downsample` is the per-bucket map of `bucketPeak` over bucket indices. -/
theorem downsample_eq_map (samples : List Int) (buckets : Nat)
    (mode : CalculationMode) (h : ¬(samples.length = 0 ∨ buckets = 0)) :
    downsample fastSqrt samples buckets mode =
      (List.range buckets).map
        (bucketPeak fastSqrt samples
          (samplesPerBucket samples.length buckets) mode) := by
  rw [downsample, if_neg h]
  apply List.ext_get?
  intro j
  rw [writeBuckets_get? fastSqrt samples _ mode 0 buckets _ j,
    List.length_replicate]
  by_cases hj : j < buckets
  · rw [if_pos ⟨Nat.zero_le _, hj, hj⟩]
    symm
    simp [List.get?_eq_getElem?, List.getElem?_map, List.getElem?_range, hj]
  · rw [if_neg (by omega), List.get?_len_le (by simp; omega),
      List.get?_len_le (by simp; omega)]

/-- `downsample` produces exactly `buckets` peaks on non-degenerate input. -/
theorem downsample_length (samples : List Int) (buckets : Nat)
    (mode : CalculationMode) (h : ¬(samples.length = 0 ∨ buckets = 0)) :
    (downsample fastSqrt samples buckets mode).length = buckets := by
  rw [downsample_eq_map fastSqrt samples buckets mode h, List.length_map,
    List.length_range]

/-- Entry `j` of the sequential result is the bucket value of bucket `j`. -/
theorem downsample_get? (samples : List Int) (buckets : Nat)
    (mode : CalculationMode) (j : Nat)
    (h : ¬(samples.length = 0 ∨ buckets = 0)) (hj : j < buckets) :
    (downsample fastSqrt samples buckets mode).get? j =
      some (bucketPeak fastSqrt samples
        (samplesPerBucket samples.length buckets) mode j) := by
  rw [downsample_eq_map fastSqrt samples buckets mode h]
  simp [List.get?_eq_getElem?, List.getElem?_map, List.getElem?_range, hj]

/-- Checked LUFS agrees with (the `some` of) total LUFS when the range is
within bounds. -/
theorem calculateLUFSChecked_eq (samples : List Int) (start e : Nat)
    (h : e ≤ samples.length) :
    calculateLUFSChecked fastSqrt samples start e =
      some (calculateLUFS fastSqrt samples start e) := by
  rw [calculateLUFSChecked, calculateLUFS]
  by_cases hse : e ≤ start
  · rw [if_pos hse, if_pos hse]
  · rw [if_neg hse, if_neg hse,
      loopFoldChecked_eq_some lufsStep samples start e _ h, Option.map_some']

/-- Checked unrolled RMS loop agrees with the total one in bounds. -/
theorem rmsMainChecked_eq (samples : List Int) (i e : Nat) (sum : ℚ)
    (h : e ≤ samples.length) :
    rmsMainChecked samples i e sum = some (rmsMain samples i e sum) := by
  by_cases h8 : i + 8 ≤ e
  · rw [rmsMainChecked, dif_pos h8, rmsMain, dif_pos h8,
      get?_eq_some_getD samples i (by omega), Option.some_bind,
      get?_eq_some_getD samples (i + 1) (by omega), Option.some_bind,
      get?_eq_some_getD samples (i + 2) (by omega), Option.some_bind,
      get?_eq_some_getD samples (i + 3) (by omega), Option.some_bind,
      get?_eq_some_getD samples (i + 4) (by omega), Option.some_bind,
      get?_eq_some_getD samples (i + 5) (by omega), Option.some_bind,
      get?_eq_some_getD samples (i + 6) (by omega), Option.some_bind,
      get?_eq_some_getD samples (i + 7) (by omega), Option.some_bind]
    exact rmsMainChecked_eq samples (i + 8) e _ h
  · rw [rmsMainChecked, dif_neg h8, rmsMain, dif_neg h8]
    exact loopFoldChecked_eq_some rmsStep samples i e sum h
termination_by e - i
decreasing_by omega

/-- Checked RMS agrees with total RMS in bounds. -/
theorem calculateRMSChecked_eq (samples : List Int) (start e : Nat)
    (h : e ≤ samples.length) :
    calculateRMSChecked fastSqrt samples start e =
      some (calculateRMS fastSqrt samples start e) := by
  rw [calculateRMSChecked, calculateRMS]
  by_cases hse : e ≤ start
  · rw [if_pos hse, if_pos hse]
  · rw [if_neg hse, if_neg hse, rmsMainChecked_eq samples start e 0 h,
      Option.map_some']

/-- Checked peak agrees with total peak in bounds. -/
theorem calculatePeakChecked_eq (samples : List Int) (start e : Nat)
    (h : e ≤ samples.length) :
    calculatePeakChecked samples start e =
      some (calculatePeak samples start e) := by
  rw [calculatePeakChecked, calculatePeak]
  by_cases hse : e ≤ start
  · rw [if_pos hse, if_pos hse]
  · rw [if_neg hse, if_neg hse]
    exact loopFoldChecked_eq_some peakStep samples start e 0 h

/-- Checked VU agrees with total VU in bounds. -/
theorem calculateVUChecked_eq (samples : List Int) (start e : Nat)
    (h : e ≤ samples.length) :
    calculateVUChecked fastSqrt samples start e =
      some (calculateVU fastSqrt samples start e) := by
  rw [calculateVUChecked, calculateVU]
  by_cases hse : e ≤ start
  · rw [if_pos hse, if_pos hse]
  · rw [if_neg hse, if_neg hse,
      loopFoldChecked_eq_some vuStep samples start e 0 h, Option.map_some']

/-- Checked dynamic agrees with total dynamic in bounds. -/
theorem calculateDynamicChecked_eq (samples : List Int) (start e : Nat)
    (h : e ≤ samples.length) :
    calculateDynamicChecked fastSqrt samples start e =
      some (calculateDynamic fastSqrt samples start e) := by
  rw [calculateDynamicChecked, calculateDynamic]
  by_cases hse : e ≤ start
  · rw [if_pos hse, if_pos hse]
  · rw [if_neg hse, if_neg hse,
      loopFoldChecked_eq_some dynMeanStep samples start e 0 h,
      Option.some_bind]
    simp only []
    rw [loopFoldChecked_eq_some (dynVarStep _) samples start e _ h,
      Option.map_some']

/-- Checked smooth agrees with total smooth in bounds. -/
theorem calculateSmoothChecked_eq (samples : List Int) (start e : Nat)
    (h : e ≤ samples.length) :
    calculateSmoothChecked fastSqrt samples start e =
      some (calculateSmooth fastSqrt samples start e) := by
  rw [calculateSmoothChecked, calculateSmooth]
  by_cases hse : e ≤ start
  · rw [if_pos hse, if_pos hse]
  · rw [if_neg hse, if_neg hse,
      loopFoldChecked_eq_some smoothStep samples start e _ h,
      Option.map_some']

/-- Checked dispatch agrees with total dispatch in bounds: no calculator
indexes out of range when `e ≤ len(samples)`. -/
theorem calculateLoudnessChecked_eq (samples : List Int) (start e : Nat)
    (mode : CalculationMode) (h : e ≤ samples.length) :
    calculateLoudnessChecked fastSqrt samples start e mode =
      some (calculateLoudness fastSqrt samples start e mode) := by
  rw [calculateLoudnessChecked, calculateLoudness]
  by_cases h1 : mode = ModeRMS
  · rw [if_pos h1, if_pos h1]; exact calculateRMSChecked_eq fastSqrt samples start e h
  rw [if_neg h1, if_neg h1]
  by_cases h2 : mode = ModeLUFS
  · rw [if_pos h2, if_pos h2]; exact calculateLUFSChecked_eq fastSqrt samples start e h
  rw [if_neg h2, if_neg h2]
  by_cases h3 : mode = ModePeak
  · rw [if_pos h3, if_pos h3]; exact calculatePeakChecked_eq samples start e h
  rw [if_neg h3, if_neg h3]
  by_cases h4 : mode = ModeVU
  · rw [if_pos h4, if_pos h4]; exact calculateVUChecked_eq fastSqrt samples start e h
  rw [if_neg h4, if_neg h4]
  by_cases h5 : mode = ModeDynamic
  · rw [if_pos h5, if_pos h5]; exact calculateDynamicChecked_eq fastSqrt samples start e h
  rw [if_neg h5, if_neg h5]
  by_cases h6 : mode = ModeSmooth
  · rw [if_pos h6, if_pos h6]; exact calculateSmoothChecked_eq fastSqrt samples start e h
  rw [if_neg h6, if_neg h6]
  exact calculateLUFSChecked_eq fastSqrt samples start e h

/-- The bucket ranges used by both paths always end within the sample list
(by the `min` clamp), so the checked bucket value is always defined. -/
theorem bucketPeakChecked_eq (samples : List Int) (spb : Nat)
    (mode : CalculationMode) (bucket : Nat) :
    bucketPeakChecked fastSqrt samples spb mode bucket =
      some (bucketPeak fastSqrt samples spb mode bucket) := by
  rw [bucketPeakChecked, bucketPeak]
  exact calculateLoudnessChecked_eq fastSqrt samples _ _ mode
    (Nat.min_le_right _ _)

/-- The checked bucket write loop never fails. -/
theorem writeBucketsChecked_eq (samples : List Int) (spb : Nat)
    (mode : CalculationMode) (i e : Nat) (peaks : List ℚ) :
    writeBucketsChecked fastSqrt samples spb mode i e peaks =
      some (writeBuckets fastSqrt samples spb mode i e peaks) := by
  by_cases h : i < e
  · rw [writeBucketsChecked, dif_pos h,
      bucketPeakChecked_eq fastSqrt samples spb mode i, Option.some_bind,
      writeBuckets_step fastSqrt samples spb mode i e peaks h]
    exact writeBucketsChecked_eq samples spb mode (i + 1) e _
  · rw [writeBucketsChecked, dif_neg h,
      writeBuckets_stop fastSqrt samples spb mode i e peaks h]
termination_by e - i
decreasing_by omega

/-- The checked sequential path never fails: `downsample` never indexes the
sample slice out of range. -/
theorem downsampleChecked_eq (samples : List Int) (buckets : Nat)
    (mode : CalculationMode) :
    downsampleChecked fastSqrt samples buckets mode =
      some (downsample fastSqrt samples buckets mode) := by
  rw [downsampleChecked, downsample]
  by_cases hg : samples.length = 0 ∨ buckets = 0
  · rw [if_pos hg, if_pos hg]
  · rw [if_neg hg, if_neg hg]
    exact writeBucketsChecked_eq fastSqrt samples _ mode 0 buckets _

/-- Folding the checked worker bodies from a defined accumulator stays
defined and computes the unchecked worker fold. -/
theorem foldl_workerWriteChecked (numCPU buckets : Nat) (samples : List Int)
    (spb : Nat) (mode : CalculationMode) (l : List Nat) (p : List ℚ) :
    l.foldl (workerWriteChecked fastSqrt numCPU buckets samples spb mode)
        (some p) =
      some (l.foldl (workerWrite fastSqrt numCPU buckets samples spb mode) p) := by
  induction l generalizing p with
  | nil => rw [List.foldl_nil, List.foldl_nil]
  | cons a l ih =>
      rw [List.foldl_cons, List.foldl_cons, workerWriteChecked,
        Option.some_bind, writeBucketsChecked_eq fastSqrt samples spb mode,
        ih, workerWrite]

/-- The checked concurrent path never fails: `downsampleConcurrent` never
indexes the sample slice out of range. -/
theorem downsampleConcurrentChecked_eq (numCPU : Nat) (samples : List Int)
    (buckets : Nat) (mode : CalculationMode) :
    downsampleConcurrentChecked fastSqrt numCPU samples buckets mode =
      some (downsampleConcurrent fastSqrt numCPU samples buckets mode) := by
  rw [downsampleConcurrentChecked, downsampleConcurrent]
  by_cases hg : samples.length = 0 ∨ buckets = 0
  · rw [if_pos hg, if_pos hg]
  · rw [if_neg hg, if_neg hg]
    by_cases hs : samples.length < 50000
    · simp only [if_pos hs]
      exact downsampleChecked_eq fastSqrt samples buckets mode
    · simp only [if_neg hs]
      exact foldl_workerWriteChecked fastSqrt numCPU buckets samples _ mode _ _

/-- The source's branchy absolute value is the absolute value. -/
theorem ite_neg_abs (f : ℚ) : (if f < 0 then -f else f) = |f| := by
  by_cases h : f < 0
  · rw [if_pos h]; exact (abs_of_neg h).symm
  · rw [if_neg h]; exact (abs_of_nonneg (not_lt.mp h)).symm

/-- Folding the LUFS accumulation over a list, starting from previous
sample `p`, sums the scaled filtered magnitudes of each sample paired
with its predecessor. -/
theorem foldl_lufsStep (l : List Int) (sum p : ℚ) :
    (l.foldl lufsStep (sum, p)).1 =
      sum + (((l.map fun (s : Int) => (s : ℚ) * invMaxSample).zip
        (p :: (l.map fun (s : Int) => (s : ℚ) * invMaxSample))).map
          lufsTerm).sum := by
  induction l generalizing sum p with
  | nil => simp
  | cons a l ih =>
      rw [List.foldl_cons, List.map_cons, List.zip_cons_cons, List.map_cons,
        List.sum_cons, ih]
      simp only [lufsStep, lufsTerm, ite_neg_abs]
      ring

/-- `0 ≤ if x < 0 then -x else x`. -/
theorem ite_neg_nonneg (x : ℚ) : 0 ≤ if x < 0 then -x else x := by
  rw [ite_neg_abs]; exact abs_nonneg x

/-- The generic loop preserves any invariant preserved by its body. -/
theorem loopFold_invariant {σ : Type} (P : σ → Prop) (f : σ → Int → σ)
    (samples : List Int) (i e : Nat) (st : σ)
    (hf : ∀ st v, P st → P (f st v)) (hst : P st) :
    P (loopFold f samples i e st) := by
  by_cases h : i < e
  · rw [loopFold_step f samples i e st h]
    exact loopFold_invariant P f samples (i + 1) e _ hf (hf _ _ hst)
  · rw [loopFold_stop f samples i e st h]
    exact hst
termination_by e - i
decreasing_by omega

/-- `calculatePeak` is non-negative. -/
theorem calculatePeak_nonneg (samples : List Int) (start e : Nat) :
    0 ≤ calculatePeak samples start e := by
  rw [calculatePeak]
  split
  · exact le_refl 0
  · refine loopFold_invariant (fun st => 0 ≤ st) peakStep samples start e 0
      (fun st v hst => ?_) (le_refl 0)
    simp only [peakStep]
    split <;> split <;> first | assumption | linarith

/-- `calculateRMS` is non-negative whenever the square-root primitive is. -/
theorem calculateRMS_nonneg (hsq : ∀ x, 0 ≤ fastSqrt x) (samples : List Int)
    (start e : Nat) : 0 ≤ calculateRMS fastSqrt samples start e := by
  simp only [calculateRMS]
  split
  · exact le_refl 0
  · split
    · exact hsq _
    · exact le_refl 0

/-- `calculateLUFS` is non-negative whenever the square-root primitive is.
Both branches of the post-curve preserve non-negativity of `v`. -/
theorem calculateLUFS_nonneg (hsq : ∀ x, 0 ≤ fastSqrt x) (samples : List Int)
    (start e : Nat) : 0 ≤ calculateLUFS fastSqrt samples start e := by
  simp only [calculateLUFS]
  split
  · exact le_refl 0
  · split
    · split
      · exact mul_nonneg (mul_nonneg (hsq _) (hsq _)) (by norm_num)
      · exact mul_nonneg (hsq _) (by norm_num)
    · exact le_refl 0

/-- `calculateVU` is non-negative whenever the square-root primitive is. -/
theorem calculateVU_nonneg (hsq : ∀ x, 0 ≤ fastSqrt x) (samples : List Int)
    (start e : Nat) : 0 ≤ calculateVU fastSqrt samples start e := by
  simp only [calculateVU]
  split
  · exact le_refl 0
  · split
    · exact mul_nonneg (hsq _) (by norm_num)
    · exact le_refl 0

/-- `calculateDynamic` is non-negative whenever the square-root primitive
is: `rms ≥ 0` and `1 + 2·dynamicFactor ≥ 0`. -/
theorem calculateDynamic_nonneg (hsq : ∀ x, 0 ≤ fastSqrt x)
    (samples : List Int) (start e : Nat) :
    0 ≤ calculateDynamic fastSqrt samples start e := by
  simp only [calculateDynamic]
  split
  · exact le_refl 0
  · split
    · exact mul_nonneg (hsq _)
        (add_nonneg (by norm_num) (mul_nonneg (hsq _) (by norm_num)))
    · exact le_refl 0

/-- `calculateSmooth` is non-negative whenever the square-root primitive is. -/
theorem calculateSmooth_nonneg (hsq : ∀ x, 0 ≤ fastSqrt x)
    (samples : List Int) (start e : Nat) :
    0 ≤ calculateSmooth fastSqrt samples start e := by
  simp only [calculateSmooth]
  split
  · exact le_refl 0
  · split
    · exact mul_nonneg (hsq _) (by norm_num)
    · exact le_refl 0

/-- Every mode's result (including the LUFS fallback for unknown modes) is
non-negative whenever the square-root primitive is. -/
theorem calculateLoudness_nonneg (hsq : ∀ x, 0 ≤ fastSqrt x)
    (samples : List Int) (start e : Nat) (mode : CalculationMode) :
    0 ≤ calculateLoudness fastSqrt samples start e mode := by
  rw [calculateLoudness]
  split
  · exact calculateRMS_nonneg fastSqrt hsq samples start e
  split
  · exact calculateLUFS_nonneg fastSqrt hsq samples start e
  split
  · exact calculatePeak_nonneg samples start e
  split
  · exact calculateVU_nonneg fastSqrt hsq samples start e
  split
  · exact calculateDynamic_nonneg fastSqrt hsq samples start e
  split
  · exact calculateSmooth_nonneg fastSqrt hsq samples start e
  · exact calculateLUFS_nonneg fastSqrt hsq samples start e

/-- `downsampleConcurrent` on an empty input or zero buckets is empty. -/
theorem downsampleConcurrent_nil (numCPU : Nat) (samples : List Int)
    (buckets : Nat) (mode : CalculationMode)
    (h : samples.length = 0 ∨ buckets = 0) :
    downsampleConcurrent fastSqrt numCPU samples buckets mode = [] := by
  rw [downsampleConcurrent, if_pos h]

/-- The accumulated sum of the unrolled RMS loops is the reference
squared-sum accumulation. -/
theorem rmsMain_eq_sumSquaresRef (samples : List Int) (start e : Nat) :
    rmsMain samples start e 0 = sumSquaresRef samples start e := by
  rw [rmsMain_eq_loopFold, loopFold_eq_foldl, foldl_rmsStep, zero_add,
    sumSquaresRef, List.map_map]
  rfl

/-- The 8-way unrolled RMS implementation computes exactly the
straightforward reference accumulation. -/
theorem calculateRMS_eq_ref (samples : List Int) (start e : Nat) :
    calculateRMS fastSqrt samples start e =
      calculateRMSRef fastSqrt samples start e := by
  rw [calculateRMS, calculateRMSRef]
  by_cases hse : e ≤ start
  · rw [if_pos hse, if_pos hse]
  · rw [if_neg hse, if_neg hse]
    show (if 0 < e - start then
        fastSqrt (rmsMain samples start e 0 / ((e - start : Nat) : ℚ))
      else 0) = _
    rw [if_pos (show 0 < e - start by omega),
      rmsMain_eq_sumSquaresRef samples start e]

/-- On a non-empty range, `calculateLUFS` computes exactly the spec-level
description `lufsSpec`. -/
theorem calculateLUFS_eq_spec (samples : List Int) (start e : Nat)
    (h : start < e) :
    calculateLUFS fastSqrt samples start e =
      lufsSpec fastSqrt samples start e := by
  have hsum : (loopFold lufsStep samples start e ((0 : ℚ), (0 : ℚ))).1 =
      (((((List.range (e - start)).map fun k =>
          samples.getD (start + k) 0).map fun (s : Int) =>
            (s : ℚ) * invMaxSample).zip
        ((0 : ℚ) :: (((List.range (e - start)).map fun k =>
          samples.getD (start + k) 0).map fun (s : Int) =>
            (s : ℚ) * invMaxSample))).map lufsTerm).sum := by
    rw [loopFold_eq_foldl, foldl_lufsStep, zero_add]
  rw [calculateLUFS, if_neg (show ¬e ≤ start by omega), lufsSpec]
  show (if 0 < e - start then
      (if fastSqrt ((loopFold lufsStep samples start e ((0 : ℚ), (0 : ℚ))).1 /
          ((e - start : Nat) : ℚ)) > 0.1 then
        fastSqrt ((loopFold lufsStep samples start e ((0 : ℚ), (0 : ℚ))).1 /
            ((e - start : Nat) : ℚ)) *
          fastSqrt ((loopFold lufsStep samples start e ((0 : ℚ), (0 : ℚ))).1 /
            ((e - start : Nat) : ℚ)) * 2.0
      else fastSqrt ((loopFold lufsStep samples start e ((0 : ℚ), (0 : ℚ))).1 /
          ((e - start : Nat) : ℚ)) * 0.5)
    else 0) = _
  rw [if_pos (show 0 < e - start by omega), hsum]
  by_cases hv : fastSqrt
      ((((((List.range (e - start)).map fun k =>
          samples.getD (start + k) 0).map fun (s : Int) =>
            (s : ℚ) * invMaxSample).zip
        ((0 : ℚ) :: (((List.range (e - start)).map fun k =>
          samples.getD (start + k) 0).map fun (s : Int) =>
            (s : ℚ) * invMaxSample))).map lufsTerm).sum /
        ((e - start : Nat) : ℚ)) > 0.1
  · rw [if_pos hv, if_pos hv]
    norm_num
  · rw [if_neg hv, if_neg hv]

/-- The bucket size of both paths is `floor(N/B)` clamped up to `1`. -/
theorem samplesPerBucket_eq_max (n buckets : Nat) :
    samplesPerBucket n buckets = max (n / buckets) 1 := by
  rw [samplesPerBucket]
  by_cases h : n / buckets = 0
  · rw [if_pos h, h]
    decide
  · rw [if_neg h]
    exact (Nat.max_eq_left (Nat.one_le_iff_ne_zero.mpr h)).symm

end Helpers

/-! ## Claim theorems -/

section Claims

/-- C1: for every sample sequence of length `N` and bucket count `B`,
`downsample` and `downsampleConcurrent` return a peak sequence of length
exactly `B` when `N > 0` and `B > 0`, and an empty result when `N = 0`
or `B = 0`. -/
theorem C1_generate_length (fastSqrt : ℚ → ℚ) (numCPU : Nat)
    (samples : List Int) (buckets : Nat) (mode : CalculationMode)
    (hcpu : 1 ≤ numCPU) :
    (0 < samples.length → 0 < buckets →
      (downsample fastSqrt samples buckets mode).length = buckets ∧
      (downsampleConcurrent fastSqrt numCPU samples buckets mode).length =
        buckets) ∧
    (samples.length = 0 ∨ buckets = 0 →
      downsample fastSqrt samples buckets mode = [] ∧
      downsampleConcurrent fastSqrt numCPU samples buckets mode = []) := by
  constructor
  · intro h1 h2
    have hg : ¬(samples.length = 0 ∨ buckets = 0) := by omega
    refine ⟨downsample_length fastSqrt samples buckets mode hg, ?_⟩
    rw [concurrent_eq_sequential fastSqrt numCPU samples buckets mode hcpu]
    exact downsample_length fastSqrt samples buckets mode hg
  · intro h
    exact ⟨downsample_nil fastSqrt samples buckets mode h,
      downsampleConcurrent_nil fastSqrt numCPU samples buckets mode h⟩

/-- Witness for C1 at concrete input. -/
theorem C1_generate_length_witness :
    1 ≤ 1 ∧
    ((0 < ([1, 2, 3] : List Int).length → 0 < 2 →
      (downsample id [1, 2, 3] 2 ModePeak).length = 2 ∧
      (downsampleConcurrent id 1 [1, 2, 3] 2 ModePeak).length = 2) ∧
    (([1, 2, 3] : List Int).length = 0 ∨ 2 = 0 →
      downsample id [1, 2, 3] 2 ModePeak = [] ∧
      downsampleConcurrent id 1 [1, 2, 3] 2 ModePeak = [])) :=
  ⟨by decide, C1_generate_length id 1 [1, 2, 3] 2 ModePeak (by decide)⟩

/-- C2: for fixed samples, bucket count and mode, the concurrent path
returns exactly the sequential path's peak sequence (for any worker count
of at least one, hence both below and at-or-above the 50,000-sample
threshold), and for `N ≥ 50,000` the worker partition
(`bucketsPerWorker = floor(B/workers)`, last worker absorbing the
remainder) covers every bucket exactly once, in order. -/
theorem C2_concurrent_eq_sequential (fastSqrt : ℚ → ℚ) (numCPU : Nat)
    (samples : List Int) (buckets : Nat) (mode : CalculationMode)
    (hcpu : 1 ≤ numCPU) :
    downsampleConcurrent fastSqrt numCPU samples buckets mode =
      downsample fastSqrt samples buckets mode ∧
    (50000 ≤ samples.length → 0 < buckets →
      (List.range (workerCount numCPU buckets)).flatMap
          (fun w => List.range' (workerStart numCPU buckets w)
            (workerEnd numCPU buckets w - workerStart numCPU buckets w)) =
        List.range buckets) := by
  refine ⟨concurrent_eq_sequential fastSqrt numCPU samples buckets mode hcpu,
    fun _ hb => workerRanges_cover numCPU buckets hcpu hb⟩

/-- Witness for C2 at concrete input. -/
theorem C2_concurrent_eq_sequential_witness :
    1 ≤ 2 ∧
    (downsampleConcurrent id 2 [7, -7, 7] 2 ModeRMS =
      downsample id [7, -7, 7] 2 ModeRMS ∧
    (50000 ≤ ([7, -7, 7] : List Int).length → 0 < 2 →
      (List.range (workerCount 2 2)).flatMap
          (fun w => List.range' (workerStart 2 2 w)
            (workerEnd 2 2 w - workerStart 2 2 w)) =
        List.range 2)) :=
  ⟨by decide, C2_concurrent_eq_sequential id 2 [7, -7, 7] 2 ModeRMS (by decide)⟩

/-- C3: for `N > 0`, `B > 0`, bucket `i < B` of `downsample` spans exactly
`[i·bucketSize, min((i+1)·bucketSize, N))` with
`bucketSize = max(floor(N/B), 1)`; no remainder is redistributed. -/
theorem C3_bucket_boundaries (fastSqrt : ℚ → ℚ) (samples : List Int)
    (buckets : Nat) (mode : CalculationMode) (i : Nat)
    (hn : 0 < samples.length) (hb : 0 < buckets) (hi : i < buckets) :
    (downsample fastSqrt samples buckets mode).get? i =
      some (calculateLoudness fastSqrt samples
        (i * max (samples.length / buckets) 1)
        (min ((i + 1) * max (samples.length / buckets) 1) samples.length)
        mode) := by
  have hg : ¬(samples.length = 0 ∨ buckets = 0) := by omega
  rw [downsample_get? fastSqrt samples buckets mode i hg hi, bucketPeak,
    samplesPerBucket_eq_max, Nat.succ_mul]

/-- Witness for C3 at concrete input. -/
theorem C3_bucket_boundaries_witness :
    0 < ([4, 5, 6, 7, 8] : List Int).length ∧ 0 < 2 ∧ 1 < 2 ∧
    (downsample id [4, 5, 6, 7, 8] 2 ModeVU).get? 1 =
      some (calculateLoudness id [4, 5, 6, 7, 8]
        (1 * max (([4, 5, 6, 7, 8] : List Int).length / 2) 1)
        (min ((1 + 1) * max (([4, 5, 6, 7, 8] : List Int).length / 2) 1)
          ([4, 5, 6, 7, 8] : List Int).length)
        ModeVU) :=
  ⟨by decide, by decide, by decide,
    C3_bucket_boundaries id [4, 5, 6, 7, 8] 2 ModeVU 1 (by decide) (by decide)
      (by decide)⟩

/-- C4: for `B > N > 0` (bucket size clamped to 1), neither `downsample`
nor `downsampleConcurrent` ever indexes the sample slice out of range
(the bounds-checked runs succeed with the same results), and every
degenerate bucket whose start index is `≥ N` yields `0`. -/
theorem C4_degenerate_buckets_safe (fastSqrt : ℚ → ℚ) (numCPU : Nat)
    (samples : List Int) (buckets : Nat) (mode : CalculationMode)
    (hn : 0 < samples.length) (hb : samples.length < buckets)
    (hcpu : 1 ≤ numCPU) :
    downsampleChecked fastSqrt samples buckets mode =
      some (downsample fastSqrt samples buckets mode) ∧
    downsampleConcurrentChecked fastSqrt numCPU samples buckets mode =
      some (downsampleConcurrent fastSqrt numCPU samples buckets mode) ∧
    (∀ i, i < buckets → samples.length ≤ i →
      (downsample fastSqrt samples buckets mode).get? i = some 0 ∧
      (downsampleConcurrent fastSqrt numCPU samples buckets mode).get? i =
        some 0) := by
  refine ⟨downsampleChecked_eq fastSqrt samples buckets mode,
    downsampleConcurrentChecked_eq fastSqrt numCPU samples buckets mode,
    fun i hi hNi => ?_⟩
  have hg : ¬(samples.length = 0 ∨ buckets = 0) := by omega
  have hspb : samplesPerBucket samples.length buckets = 1 := by
    rw [samplesPerBucket, if_pos (Nat.div_eq_of_lt hb)]
  have hz : bucketPeak fastSqrt samples
      (samplesPerBucket samples.length buckets) mode i = 0 := by
    rw [bucketPeak, hspb]
    exact calculateLoudness_empty fastSqrt samples _ _ mode
      (by simp only [Nat.mul_one]; omega)
  constructor
  · rw [downsample_get? fastSqrt samples buckets mode i hg hi, hz]
  · rw [concurrent_eq_sequential fastSqrt numCPU samples buckets mode hcpu,
      downsample_get? fastSqrt samples buckets mode i hg hi, hz]

/-- Witness for C4 at concrete input (`N = 5`, `B = 20`, the spec's own
edge-case example). -/
theorem C4_degenerate_buckets_safe_witness :
    0 < ([1, 2, 3, 4, 5] : List Int).length ∧
    ([1, 2, 3, 4, 5] : List Int).length < 20 ∧ 1 ≤ 1 ∧
    (downsampleChecked id [1, 2, 3, 4, 5] 20 ModeRMS =
      some (downsample id [1, 2, 3, 4, 5] 20 ModeRMS) ∧
    downsampleConcurrentChecked id 1 [1, 2, 3, 4, 5] 20 ModeRMS =
      some (downsampleConcurrent id 1 [1, 2, 3, 4, 5] 20 ModeRMS) ∧
    (∀ i, i < 20 → ([1, 2, 3, 4, 5] : List Int).length ≤ i →
      (downsample id [1, 2, 3, 4, 5] 20 ModeRMS).get? i = some 0 ∧
      (downsampleConcurrent id 1 [1, 2, 3, 4, 5] 20 ModeRMS).get? i =
        some 0)) :=
  ⟨by decide, by decide, by decide,
    C4_degenerate_buckets_safe id 1 [1, 2, 3, 4, 5] 20 ModeRMS (by decide)
      (by decide) (by decide)⟩

/-- C5: on every non-empty range, `calculateLUFS` is exactly the spec's
pipeline: one-pole pre-emphasis `sample − 0.85·prevSample` (seeded at 0,
updated every step), magnitudes scaled by `m²·(1+0.5·m)` and summed,
approximate square root `v` of the mean, then `v²·2` when `v > 0.1` and
`v·0.5` otherwise — exactly that threshold and branch. -/
theorem C5_lufs_pipeline (fastSqrt : ℚ → ℚ) (samples : List Int)
    (start e : Nat) (h : start < e) :
    calculateLUFS fastSqrt samples start e =
      lufsSpec fastSqrt samples start e :=
  calculateLUFS_eq_spec fastSqrt samples start e h

/-- Witness for C5 at concrete input. -/
theorem C5_lufs_pipeline_witness :
    0 < 2 ∧
    calculateLUFS id [20000, -5000] 0 2 = lufsSpec id [20000, -5000] 0 2 :=
  ⟨by decide, C5_lufs_pipeline id [20000, -5000] 0 2 (by decide)⟩

/-- C6: for every range, the 8-way unrolled RMS implementation returns the
same result as the straightforward reference that accumulates each
normalized squared sample one at a time, divides by the range length, and
takes the square root (exact equality in exact arithmetic). -/
theorem C6_rms_unrolled_eq_reference (fastSqrt : ℚ → ℚ) (samples : List Int)
    (start e : Nat) :
    calculateRMS fastSqrt samples start e =
      calculateRMSRef fastSqrt samples start e :=
  calculateRMS_eq_ref fastSqrt samples start e

/-- C8: `UpdateConfig` always replaces the waveform's config, regenerates
the peaks if and only if the new mode differs from the old mode and a
non-nil sample slice is provided, and a call changing only cosmetic
fields (color, spacing, radius, dimensions) leaves the peaks unchanged. -/
theorem C8_update_config (fastSqrt : ℚ → ℚ) (numCPU : Nat) (w : Waveform)
    (config : Config) (samples : Option (List Int)) (c : String)
    (sp wd ht : Nat) (r : ℚ) :
    (UpdateConfig fastSqrt numCPU w config samples).Config = config ∧
    (UpdateConfig fastSqrt numCPU w config samples).Peaks =
      (if w.Config.Mode ≠ config.Mode ∧ samples ≠ none then
        generatePeaks fastSqrt numCPU (samples.getD []) config
      else w.Peaks) ∧
    (UpdateConfig fastSqrt numCPU w
        { w.Config with
          Width := wd, Height := ht, BarSpacing := sp,
          BarColor := c, CornerRadius := r } samples).Peaks = w.Peaks := by
  refine ⟨?_, ?_, ?_⟩
  · simp only [UpdateConfig]
    split <;> rfl
  · simp only [UpdateConfig]
    by_cases hc : w.Config.Mode ≠ config.Mode ∧ samples ≠ none
    · rw [if_pos hc, if_pos hc]
    · rw [if_neg hc, if_neg hc]
  · simp only [UpdateConfig]
    rw [if_neg (fun hc => hc.1 rfl)]

/-- C9: every calculator result — for every mode, including unrecognized
modes dispatched to LUFS — is non-negative (given that the square-root
primitive returns non-negative values, which its `x ≤ 0 → 0`/`1/y` shape
provides), and hence every entry of both produced peak sequences is
non-negative. -/
theorem C9_loudness_nonneg (fastSqrt : ℚ → ℚ) (numCPU : Nat)
    (samples : List Int) (start e buckets : Nat) (mode : CalculationMode)
    (hsq : ∀ x : ℚ, 0 ≤ fastSqrt x) :
    0 ≤ calculateLoudness fastSqrt samples start e mode ∧
    (∀ p ∈ downsample fastSqrt samples buckets mode, 0 ≤ p) ∧
    (1 ≤ numCPU →
      ∀ p ∈ downsampleConcurrent fastSqrt numCPU samples buckets mode,
        0 ≤ p) := by
  have hseq : ∀ p ∈ downsample fastSqrt samples buckets mode, 0 ≤ p := by
    by_cases hg : samples.length = 0 ∨ buckets = 0
    · rw [downsample_nil fastSqrt samples buckets mode hg]
      intro p hp
      exact absurd hp (List.not_mem_nil p)
    · rw [downsample_eq_map fastSqrt samples buckets mode hg]
      intro p hp
      obtain ⟨i, _, rfl⟩ := List.mem_map.mp hp
      rw [bucketPeak]
      exact calculateLoudness_nonneg fastSqrt hsq samples _ _ mode
  refine ⟨calculateLoudness_nonneg fastSqrt hsq samples start e mode, hseq,
    fun hcpu => ?_⟩
  rw [concurrent_eq_sequential fastSqrt numCPU samples buckets mode hcpu]
  exact hseq

/-- Witness for C9 at concrete input. -/
theorem C9_loudness_nonneg_witness :
    (∀ x : ℚ, 0 ≤ (fun _ => (0 : ℚ)) x) ∧
    (0 ≤ calculateLoudness (fun _ => (0 : ℚ)) [3, -3] 0 2 "unknown" ∧
    (∀ p ∈ downsample (fun _ => (0 : ℚ)) [3, -3] 2 "unknown", 0 ≤ p) ∧
    (1 ≤ 1 →
      ∀ p ∈ downsampleConcurrent (fun _ => (0 : ℚ)) 1 [3, -3] 2 "unknown",
        0 ≤ p)) :=
  ⟨fun _ => le_refl 0,
    C9_loudness_nonneg (fun _ => (0 : ℚ)) 1 [3, -3] 0 2 2 "unknown"
      (fun _ => le_refl 0)⟩

/-- C10: the invariant `len(Peaks) = Config.Bars` established by
`NewFromSamples` is not preserved by `UpdateConfig`: updating with the
same mode but a different `Bars` leaves the peaks unchanged while the
config is replaced, so afterwards `len(Peaks) ≠ Config.Bars`.  Concrete
instance: 4 samples, `Bars` 2 → 3, mode unchanged. -/
theorem C10_bars_invariant_not_preserved :
    let cfg : Config := {
      Width := 500, Height := 80, Bars := 2, BarSpacing := 2,
      BarColor := "#3B82F6", CornerRadius := 8, Concurrent := false,
      Mode := ModeRMS }
    let w := NewFromSamples (fun _ => (0 : ℚ)) 1 [100, 200, 300, 400]
      (some cfg)
    let w2 := UpdateConfig (fun _ => (0 : ℚ)) 1 w { cfg with Bars := 3 }
      (some [100, 200, 300, 400])
    w.Peaks.length = w.Config.Bars ∧ w2.Peaks = w.Peaks ∧
      w2.Config.Bars = 3 ∧ w2.Peaks.length ≠ w2.Config.Bars := by
  intro cfg w w2
  have h1 : w.Peaks.length = 2 :=
    downsample_length (fun _ => (0 : ℚ)) [100, 200, 300, 400] 2 ModeRMS
      (by decide)
  have h2 : w2.Peaks = w.Peaks := by
    show (UpdateConfig (fun _ => (0 : ℚ)) 1 w { cfg with Bars := 3 }
      (some [100, 200, 300, 400])).Peaks = w.Peaks
    simp only [UpdateConfig]
    rw [if_neg (fun hc => hc.1 rfl)]
  refine ⟨h1, h2, rfl, ?_⟩
  rw [h2, h1]
  decide

end Claims

end Gowaveform
